import Mathlib

/-!
Verification of `src/problemsets/pset3/georgia_jobs_map.py`, a linear
geocode-cache-merge pipeline: filter jobs to Georgia, normalize addresses,
deduplicate (full_address, simple_address) pairs, geocode the pairs not yet
in the on-disk cache (with a simple-address fallback, negative caching of
failures, and a flush of the full accumulated result list every time the
accumulated count is divisible by ten, plus once after the loop), then
left-merge coordinates back onto the filtered records, drop rows without
coordinates, and build point geometries in (longitude, latitude) order.

The embedding below is a shallow model of the script.  Machine floats from
the geocoder are opaque values that the script only copies around, so
coordinates are modelled as integers; pandas DataFrames become lists of
structures; the external geocoder becomes a function from an address string
to an outcome (found / not found / raised); file contents become explicit
`Option (List _)` arguments and flush events are recorded as snapshots.
-/

namespace GeorgiaJobsMap

/-- Coordinates are opaque values copied from geocoder to cache to output. -/
abbrev Coord := Int

/-! ## String normalization: Python `str.strip` and `str.title` (ASCII) -/

/-- Python `str.strip()`: remove leading and trailing whitespace. -/
def pyStrip (s : String) : String :=
  String.mk (((s.data.dropWhile Char.isWhitespace).reverse.dropWhile Char.isWhitespace).reverse)

/-- Character-level worker for `pyTitle`; the flag says whether the previous
character was alphabetic (i.e. cased, for the ASCII inputs modelled here). -/
def pyTitleGo : Bool → List Char → List Char
  | _, [] => []
  | prevAlpha, c :: cs =>
    if c.isAlpha then
      (if prevAlpha then c.toLower else c.toUpper) :: pyTitleGo true cs
    else
      c :: pyTitleGo false cs

/-- Python `str.title()` on ASCII text: the first letter of each maximal
alphabetic run is uppercased, the rest lowercased. -/
def pyTitle (s : String) : String :=
  String.mk (pyTitleGo false s.data)

/-- pandas `Series.fillna("")` on an optional string cell. -/
def fillna (o : Option String) : String := o.getD ""

/-! ## Data model -/

/-- One row of the input `jobs.csv`, restricted to the columns the script
reads.  Address cells may be missing (pandas `NaN`). -/
structure RawRecord where
  employer_state : String
  employer_address_1 : Option String
  employer_city : Option String
  employer_postal_code : Option String
deriving DecidableEq

/-- One row of `jobs_ga` after in-place normalization of the street and city
columns and addition of the derived `full_address` / `simple_address`
columns. -/
structure GaRecord where
  employer_state : String
  employer_address_1 : String
  employer_city : String
  employer_postal_code : String
  full_address : String
  simple_address : String
deriving DecidableEq

/-- Normalization of one filtered record: `fillna("").str.strip().str.title()`
on street and city, then the two concatenated address columns. -/
def normalizeRecord (r : RawRecord) : GaRecord :=
  let street := pyTitle (pyStrip (fillna r.employer_address_1))
  let city := pyTitle (pyStrip (fillna r.employer_city))
  let zip := fillna r.employer_postal_code
  { employer_state := r.employer_state
    employer_address_1 := street
    employer_city := city
    employer_postal_code := zip
    full_address := street ++ ", " ++ city ++ ", " ++ r.employer_state ++ " " ++ zip
    simple_address := city ++ ", " ++ r.employer_state ++ " " ++ zip }

/-- `jobs_ga = jobs[jobs["EMPLOYER_STATE"] == "GA"]` followed by the
normalization of the address columns. -/
def jobs_ga (jobs : List RawRecord) : List GaRecord :=
  (jobs.filter (fun r => r.employer_state == "GA")).map normalizeRecord

/-- A row of `unique_addresses`: one (full_address, simple_address) pair. -/
structure AddrPair where
  full_address : String
  simple_address : String
deriving DecidableEq

/-- Projection of a `jobs_ga` row to its address-pair columns. -/
def addrPair (r : GaRecord) : AddrPair :=
  ⟨r.full_address, r.simple_address⟩

/-- Worker for `dropDuplicates`: keep a pair when it has not been seen yet
(pandas `drop_duplicates` keeps the first occurrence). -/
def dropDupsSeen (seen : List AddrPair) : List AddrPair → List AddrPair
  | [] => []
  | p :: rest =>
    if p ∈ seen then dropDupsSeen seen rest
    else p :: dropDupsSeen (p :: seen) rest

/-- pandas `DataFrame.drop_duplicates()` on the two address columns: keep the
first occurrence of each distinct pair, in order. -/
def dropDuplicates (l : List AddrPair) : List AddrPair :=
  dropDupsSeen [] l

/-- `unique_addresses = jobs_ga[["full_address", "simple_address"]].drop_duplicates()`. -/
def unique_addresses (rows : List GaRecord) : List AddrPair :=
  dropDuplicates (rows.map addrPair)

/-- One row of the cache CSV: `full_address, latitude, longitude`, where an
empty latitude/longitude cell means "attempted, not found". -/
structure CacheEntry where
  full_address : String
  latitude : Option Coord
  longitude : Option Coord
deriving DecidableEq

/-- The `full_address` column of a cache table. -/
def cacheKeys (c : List CacheEntry) : List String :=
  c.map (·.full_address)

/-- `to_geocode`: if the cache file exists, the unique addresses whose
`full_address` is not among the loaded keys; otherwise all of them. -/
def to_geocode (unique : List AddrPair) : Option (List CacheEntry) → List AddrPair
  | some df => unique.filter (fun p => !((cacheKeys df).contains p.full_address))
  | none => unique

/-- `geocoded_results` before the loop: the loaded cache rows as records if
the file exists, else the empty list. -/
def initResults : Option (List CacheEntry) → List CacheEntry
  | some df => df
  | none => []

/-! ## The geocoding loop -/

/-- Outcome of one `geocode(...)` call (the RateLimiter-wrapped lookup):
a location with coordinates, `None`, or a raised exception. -/
inductive GeoOutcome where
  | found (lat lon : Coord)
  | notFound
  | err
deriving DecidableEq

/-- Effects of one iteration of the geocoding loop on one address pair:
the cache entry appended to `geocoded_results`, the address strings passed
to `geocode` in order, and whether the extra `time.sleep(2)` of the
`except` branch ran. -/
structure StepResult where
  entry : CacheEntry
  calls : List String
  extraSleep : Bool
deriving DecidableEq

/-- One iteration of the loop body: try `full_address`; on `None`, and only
when `simple_address` differs, try `simple_address`; record coordinates on
success and a negative entry otherwise; an exception from either call is
caught, recorded as a negative entry, and followed by the extra sleep. -/
def geocodeStep (geocode : String → GeoOutcome) (p : AddrPair) : StepResult :=
  match geocode p.full_address with
  | GeoOutcome.found lat lon =>
      ⟨⟨p.full_address, some lat, some lon⟩, [p.full_address], false⟩
  | GeoOutcome.err =>
      ⟨⟨p.full_address, none, none⟩, [p.full_address], true⟩
  | GeoOutcome.notFound =>
      if p.simple_address ≠ p.full_address then
        match geocode p.simple_address with
        | GeoOutcome.found lat lon =>
            ⟨⟨p.full_address, some lat, some lon⟩, [p.full_address, p.simple_address], false⟩
        | GeoOutcome.err =>
            ⟨⟨p.full_address, none, none⟩, [p.full_address, p.simple_address], true⟩
        | GeoOutcome.notFound =>
            ⟨⟨p.full_address, none, none⟩, [p.full_address, p.simple_address], false⟩
      else
        ⟨⟨p.full_address, none, none⟩, [p.full_address], false⟩

/-- State of the loop: the accumulated `geocoded_results`, the snapshots
written to the cache file by the in-loop flushes (in order), and the trace
of all geocoder calls. -/
structure LoopState where
  results : List CacheEntry
  flushes : List (List CacheEntry)
  calls : List String
deriving DecidableEq

/-- One full iteration: run the lookup, append its entry, and when
`len(geocoded_results) % 10 == 0` write the whole accumulated list to the
cache file. -/
def loopStep (geocode : String → GeoOutcome) (st : LoopState) (p : AddrPair) : LoopState :=
  let r := geocodeStep geocode p
  let results := st.results ++ [r.entry]
  { results := results
    flushes := if results.length % 10 == 0 then st.flushes ++ [results] else st.flushes
    calls := st.calls ++ r.calls }

/-- The geocoding loop over the pending addresses, starting from the loaded
results.  (The script guards the loop with `if len(to_geocode) > 0`, which
coincides with folding over the empty list.) -/
def runLoop (geocode : String → GeoOutcome) (pending : List AddrPair)
    (init : List CacheEntry) : LoopState :=
  pending.foldl (loopStep geocode) ⟨init, [], []⟩

/-! ## Merge, dropna, geometry, and the success count -/

/-- A row of `jobs_ga.merge(geocoded_df, on="full_address", how="left")`:
the record together with optional coordinates. -/
structure MergedRow where
  record : GaRecord
  latitude : Option Coord
  longitude : Option Coord
deriving DecidableEq

/-- The left-merge rows produced by one `jobs_ga` record: one row per cache
entry with matching `full_address`, or a single all-NaN row when none
matches. -/
def mergeLeftOne (cache : List CacheEntry) (r : GaRecord) : List MergedRow :=
  let ms := cache.filter (fun e => e.full_address == r.full_address)
  if ms.isEmpty then [⟨r, none, none⟩]
  else ms.map (fun e => ⟨r, e.latitude, e.longitude⟩)

/-- `jobs_ga.merge(geocoded_df, on="full_address", how="left")`. -/
def mergeLeft (rows : List GaRecord) (cache : List CacheEntry) : List MergedRow :=
  rows.flatMap (mergeLeftOne cache)

/-- A row surviving `dropna(subset=["latitude", "longitude"])`. -/
structure ResolvedRow where
  record : GaRecord
  latitude : Coord
  longitude : Coord
deriving DecidableEq

/-- `dropna(subset=["latitude", "longitude"])`: keep exactly the rows where
both coordinates are present. -/
def dropna (rows : List MergedRow) : List ResolvedRow :=
  rows.filterMap (fun m =>
    match m.latitude, m.longitude with
    | some la, some lo => some ⟨m.record, la, lo⟩
    | _, _ => none)

/-- A shapely `Point(x, y)`. -/
structure Point where
  x : Coord
  y : Coord
deriving DecidableEq

/-- `[Point(xy) for xy in zip(df["longitude"], df["latitude"])]`: longitude
is the x coordinate, latitude the y coordinate. -/
def geometryOf (rows : List ResolvedRow) : List Point :=
  ((rows.map (·.longitude)).zip (rows.map (·.latitude))).map (fun xy => ⟨xy.1, xy.2⟩)

/-- `geocoded_df["latitude"].notna().sum()`: `pd.DataFrame([])` has no
columns at all, so selecting the latitude column of an empty result list
raises a `KeyError`; otherwise count the present latitudes. -/
def notnaSum (results : List CacheEntry) : Except String Nat :=
  if results.isEmpty then Except.error "KeyError: latitude"
  else Except.ok ((results.filter (fun e => e.latitude.isSome)).length)

/-- Everything the script has produced when it reaches the plotting code. -/
structure PipelineOutput where
  flushedCache : List CacheEntry
  successCount : Nat
  resolved : List ResolvedRow
  points : List Point
  calls : List String
deriving DecidableEq

/-- The whole script, from reading `jobs.csv` to the data handed to the
plot: a missing input file is a fatal unhandled error; after the loop the
final cache flush always writes `geocoded_results`, and the success-count
line fails when that list is empty. -/
def runPipeline (inputFile : Option (List RawRecord)) (cacheFile : Option (List CacheEntry))
    (geocode : String → GeoOutcome) : Except String PipelineOutput :=
  match inputFile with
  | none => Except.error "FileNotFoundError: pset3_inputdata/jobs.csv"
  | some jobs =>
    let rows := jobs_ga jobs
    let unique := unique_addresses rows
    let st := runLoop geocode (to_geocode unique cacheFile) (initResults cacheFile)
    match notnaSum st.results with
    | Except.error e => Except.error e
    | Except.ok n =>
      let resolved := dropna (mergeLeft rows st.results)
      Except.ok ⟨st.results, n, resolved, geometryOf resolved, st.calls⟩

/-! ## Concrete scenarios used by witnesses and counterexamples -/

/-- The length of the cache-file content after the most recent flush, given
the number of rows the file held before the loop started (`base`). -/
def lastFlushLen (st : LoopState) (base : Nat) : Nat :=
  ((st.flushes.getLast?).map List.length).getD base

/-- Two Georgia rows whose distinct (street, city) splits concatenate to the
same `full_address` but different `simple_address`es. -/
def jobsDup : List RawRecord :=
  [⟨"GA", some "a, b", some "c", some "1"⟩, ⟨"GA", some "a", some "b, c", some "1"⟩]

/-- A geocoder that resolves only the second row's simple address. -/
def geoDup : String → GeoOutcome := fun s =>
  if s = "B, C, GA 1" then GeoOutcome.found 1 2 else GeoOutcome.notFound

/-- A geocoder that never finds anything. -/
def gNotFound : String → GeoOutcome := fun _ => GeoOutcome.notFound

/-- A loaded cache of five rows. -/
def cache5 : List CacheEntry :=
  (List.range 5).map (fun i => ⟨"C" ++ toString i, none, none⟩)

/-- Ten pending address pairs. -/
def pend10 : List AddrPair :=
  (List.range 10).map (fun i => ⟨"P" ++ toString i, "P" ++ toString i⟩)

/-- One filtered Georgia record with `full_address` "F1". -/
def rowsF1 : List GaRecord :=
  [⟨"GA", "1 Main St", "Macon", "31201", "F1", "S1"⟩]

/-- A cache with one positive entry for "F1" and one negative for "F2". -/
def cacheF12 : List CacheEntry :=
  [⟨"F1", some 3, some 4⟩, ⟨"F2", none, none⟩]

/-! ## General lemmas about the loop -/

/-- Folding the loop body appends one cache entry per processed pair, in
order, to the accumulated results. -/
theorem foldl_loopStep_results (g : String → GeoOutcome) (ps : List AddrPair) :
    ∀ st : LoopState, (ps.foldl (loopStep g) st).results =
      st.results ++ ps.map (fun p => (geocodeStep g p).entry) := by
  induction ps with
  | nil => intro st; simp
  | cons p ps ih =>
    intro st
    simp only [List.foldl_cons, ih, List.map_cons]
    simp [loopStep]

/-- The results of a run are the loaded entries followed by one entry per
pending pair. -/
theorem runLoop_results (g : String → GeoOutcome) (ps : List AddrPair)
    (init : List CacheEntry) :
    (runLoop g ps init).results = init ++ ps.map (fun p => (geocodeStep g p).entry) := by
  simpa using foldl_loopStep_results g ps ⟨init, [], []⟩

/-! ## Claims -/

/-- Claim C9: normalization is a pure, deterministic function of the address
fields; two filtered records with identical street, city, state, and
postal-code values (missing values treated as empty strings) produce
identical (full_address, simple_address) pairs. -/
theorem claim9_normalization_deterministic (r₁ r₂ : RawRecord)
    (hstreet : fillna r₁.employer_address_1 = fillna r₂.employer_address_1)
    (hcity : fillna r₁.employer_city = fillna r₂.employer_city)
    (hstate : r₁.employer_state = r₂.employer_state)
    (hzip : fillna r₁.employer_postal_code = fillna r₂.employer_postal_code) :
    (normalizeRecord r₁).full_address = (normalizeRecord r₂).full_address ∧
      (normalizeRecord r₁).simple_address = (normalizeRecord r₂).simple_address := by
  simp [normalizeRecord, hstreet, hcity, hstate, hzip]

/-- Claim C9 witness: a record with a missing street and one with an empty
street normalize to the same address pair. -/
theorem claim9_witness :
    (normalizeRecord ⟨"GA", none, some "Atlanta", some "30301"⟩).full_address =
        (normalizeRecord ⟨"GA", some "", some "Atlanta", some "30301"⟩).full_address ∧
      (normalizeRecord ⟨"GA", none, some "Atlanta", some "30301"⟩).simple_address =
        (normalizeRecord ⟨"GA", some "", some "Atlanta", some "30301"⟩).simple_address :=
  claim9_normalization_deterministic _ _ (by decide) (by decide) (by decide) (by decide)

/-- Claim C6: each pending pair is looked up first by `full_address`, and by
`simple_address` exactly when the first lookup returned no result and the
two differ; in particular a pair whose two addresses coincide causes at
most one call. -/
theorem claim6_lookup_order (g : String → GeoOutcome) (p : AddrPair) :
    (geocodeStep g p).calls =
      p.full_address ::
        (if g p.full_address = GeoOutcome.notFound ∧ p.simple_address ≠ p.full_address
          then [p.simple_address] else []) := by
  cases h : g p.full_address with
  | found lat lon => simp [geocodeStep, h]
  | err => simp [geocodeStep, h]
  | notFound =>
    by_cases hs : p.simple_address = p.full_address
    · simp [geocodeStep, h, hs]
    · cases h2 : g p.simple_address <;> simp [geocodeStep, h, hs, h2]

/-- Claim C2: an address pair whose `full_address` is already a key of the
loaded cache is excluded from the pending set handed to the loop, so no
lookup is issued for it. -/
theorem claim2_cached_address_not_pending (unique : List AddrPair)
    (loaded : List CacheEntry) (p : AddrPair)
    (hkey : p.full_address ∈ cacheKeys loaded) :
    p ∉ to_geocode unique (some loaded) := by
  intro hpend
  simp only [to_geocode, List.mem_filter] at hpend
  exact absurd hkey (by simpa [List.elem_iff] using hpend.2)

/-- Claim C2 witness. -/
theorem claim2_witness :
    (⟨"A", "B"⟩ : AddrPair) ∉
      to_geocode [⟨"A", "B"⟩] (some [⟨"A", some 1, some 2⟩]) :=
  claim2_cached_address_not_pending _ _ _ (by decide)

/-- Claim C4: when every unique address is already a key of the loaded
cache, the pending set is empty, the loop makes zero calls and zero
flushes, and the final flush writes exactly the loaded rows back. -/
theorem claim4_cache_roundtrip (g : String → GeoOutcome) (unique : List AddrPair)
    (loaded : List CacheEntry)
    (h : ∀ p ∈ unique, p.full_address ∈ cacheKeys loaded) :
    runLoop g (to_geocode unique (some loaded)) (initResults (some loaded)) =
      ⟨loaded, [], []⟩ := by
  have hempty : to_geocode unique (some loaded) = [] := by
    simp only [to_geocode, List.filter_eq_nil_iff]
    intro p hp
    simp [List.elem_iff, h p hp]
  rw [hempty]
  rfl

/-- Claim C4 witness. -/
theorem claim4_witness :
    runLoop (fun _ => GeoOutcome.err) (to_geocode [⟨"A", "B"⟩] (some [⟨"A", none, none⟩]))
        (initResults (some [⟨"A", none, none⟩])) =
      ⟨[⟨"A", none, none⟩], [], []⟩ :=
  claim4_cache_roundtrip _ _ _ (by decide)

/-- Claim C7: an exception from either lookup is caught locally: the extra
sleep runs exactly when a lookup raised, a negative entry is recorded for
the address in that case, the loop continues with the remaining addresses,
and the only unrecovered failure is the missing input file, which
terminates the run. -/
theorem claim7_exception_recovery (g : String → GeoOutcome) (p : AddrPair)
    (ps : List AddrPair) (init : List CacheEntry) (c : Option (List CacheEntry)) :
    ((geocodeStep g p).extraSleep = true ↔
        (g p.full_address = GeoOutcome.err ∨
          (g p.full_address = GeoOutcome.notFound ∧ p.simple_address ≠ p.full_address ∧
            g p.simple_address = GeoOutcome.err)))
      ∧ ((geocodeStep g p).extraSleep = true →
          (geocodeStep g p).entry = ⟨p.full_address, none, none⟩)
      ∧ ((runLoop g (p :: ps) init).results =
          (runLoop g ps (init ++ [(geocodeStep g p).entry])).results)
      ∧ runPipeline none c g =
          Except.error "FileNotFoundError: pset3_inputdata/jobs.csv" := by
  refine ⟨?_, ?_, ?_, rfl⟩
  · cases h : g p.full_address with
    | found lat lon => simp [geocodeStep, h]
    | err => simp [geocodeStep, h]
    | notFound =>
      by_cases hs : p.simple_address = p.full_address
      · simp [geocodeStep, h, hs]
      · cases h2 : g p.simple_address <;> simp [geocodeStep, h, hs, h2]
  · intro hsleep
    cases h : g p.full_address with
    | found lat lon => simp [geocodeStep, h] at hsleep
    | err => simp [geocodeStep, h]
    | notFound =>
      by_cases hs : p.simple_address = p.full_address
      · simp [geocodeStep, h, hs]
      · cases h2 : g p.simple_address <;>
          simp [geocodeStep, h, hs, h2] at hsleep ⊢
  · rw [runLoop_results, runLoop_results, List.map_cons]
    simp

/-- Claim C7 witness: a geocoder that always raises leads to a negative
entry, the extra sleep, and continuation over the remaining address. -/
theorem claim7_witness :
    ((geocodeStep (fun _ => GeoOutcome.err) ⟨"A", "B"⟩).extraSleep = true ↔
        ((fun _ => GeoOutcome.err) "A" = GeoOutcome.err ∨
          ((fun _ => GeoOutcome.err) "A" = GeoOutcome.notFound ∧ "B" ≠ "A" ∧
            (fun _ => GeoOutcome.err) "B" = GeoOutcome.err)))
      ∧ ((geocodeStep (fun _ => GeoOutcome.err) ⟨"A", "B"⟩).extraSleep = true →
          (geocodeStep (fun _ => GeoOutcome.err) ⟨"A", "B"⟩).entry = ⟨"A", none, none⟩)
      ∧ ((runLoop (fun _ => GeoOutcome.err) [⟨"A", "B"⟩, ⟨"C", "D"⟩] []).results =
          (runLoop (fun _ => GeoOutcome.err) [⟨"C", "D"⟩]
              ([] ++ [(geocodeStep (fun _ => GeoOutcome.err) ⟨"A", "B"⟩).entry])).results)
      ∧ runPipeline none (some []) (fun _ => GeoOutcome.err) =
          Except.error "FileNotFoundError: pset3_inputdata/jobs.csv" :=
  claim7_exception_recovery (fun _ => GeoOutcome.err) ⟨"A", "B"⟩ [⟨"C", "D"⟩] [] (some [])

/-- Claim C10: with no cache file and an empty filtered record set, the loop
has nothing to do (no results, no flushes, no calls) and the success-count
line then fails with a `KeyError`, because the DataFrame built from an
empty result list has no latitude column; the pipeline errors out instead
of completing. -/
theorem claim10_empty_input_no_cache_fails (g : String → GeoOutcome)
    (jobs : List RawRecord)
    (h : jobs.filter (fun r => r.employer_state == "GA") = []) :
    runLoop g (to_geocode (unique_addresses (jobs_ga jobs)) none) (initResults none) =
        ⟨[], [], []⟩
      ∧ runPipeline (some jobs) none g = Except.error "KeyError: latitude" := by
  have hga : jobs_ga jobs = [] := by simp [jobs_ga, h]
  have hu : unique_addresses (jobs_ga jobs) = [] := by
    rw [hga]; rfl
  constructor
  · rw [show to_geocode (unique_addresses (jobs_ga jobs)) none =
        unique_addresses (jobs_ga jobs) from rfl, hu]
    rfl
  · simp only [runPipeline, hga, hu]
    rfl

/-- Claim C10 witness: a single Texas row filters to nothing and the run
fails at the success count. -/
theorem claim10_witness :
    runLoop (fun _ => GeoOutcome.notFound)
        (to_geocode (unique_addresses (jobs_ga [⟨"TX", some "1 Main St", some "Austin", some "73301"⟩])) none)
        (initResults none) = ⟨[], [], []⟩
      ∧ runPipeline (some [⟨"TX", some "1 Main St", some "Austin", some "73301"⟩]) none
          (fun _ => GeoOutcome.notFound) = Except.error "KeyError: latitude" :=
  claim10_empty_input_no_cache_fails (fun _ => GeoOutcome.notFound) _ (by decide)

/-! ## Lemmas about deduplication -/

/-- The deduplicated list is a sublist of the input. -/
theorem dropDupsSeen_sublist (l : List AddrPair) :
    ∀ seen, (dropDupsSeen seen l).Sublist l := by
  induction l with
  | nil => intro seen; simp [dropDupsSeen]
  | cons p rest ih =>
    intro seen
    by_cases hp : p ∈ seen
    · simp only [dropDupsSeen, if_pos hp]
      exact (ih seen).trans (List.sublist_cons_self p rest)
    · simp only [dropDupsSeen, if_neg hp]
      exact (ih (p :: seen)).cons₂ p

/-- Membership in the deduplicated list: present in the input and not
already seen. -/
theorem mem_dropDupsSeen (l : List AddrPair) :
    ∀ seen p, p ∈ dropDupsSeen seen l ↔ p ∈ l ∧ p ∉ seen := by
  induction l with
  | nil => intro seen p; simp [dropDupsSeen]
  | cons q rest ih =>
    intro seen p
    by_cases hq : q ∈ seen
    · simp only [dropDupsSeen, if_pos hq, ih, List.mem_cons]
      constructor
      · rintro ⟨hmem, hns⟩; exact ⟨Or.inr hmem, hns⟩
      · rintro ⟨hmem | hmem, hns⟩
        · exact absurd hq (hmem ▸ hns)
        · exact ⟨hmem, hns⟩
    · simp only [dropDupsSeen, if_neg hq, List.mem_cons, ih]
      constructor
      · rintro (rfl | ⟨hmem, hns⟩)
        · exact ⟨Or.inl rfl, hq⟩
        · exact ⟨Or.inr hmem, fun h => hns (Or.inr h)⟩
      · rintro ⟨rfl | hmem, hns⟩
        · exact Or.inl rfl
        · by_cases hpq : p = q
          · exact Or.inl hpq
          · exact Or.inr ⟨hmem, fun h => by
              rcases h with h' | h'
              · exact hpq h'
              · exact hns h'⟩

/-- The deduplicated list has no duplicates. -/
theorem dropDupsSeen_nodup (l : List AddrPair) :
    ∀ seen, (dropDupsSeen seen l).Nodup := by
  induction l with
  | nil => intro seen; simp [dropDupsSeen]
  | cons p rest ih =>
    intro seen
    by_cases hp : p ∈ seen
    · simpa [dropDupsSeen, if_pos hp] using ih seen
    · simp only [dropDupsSeen, if_neg hp, List.nodup_cons]
      refine ⟨fun hmem => ?_, ih (p :: seen)⟩
      exact ((mem_dropDupsSeen rest (p :: seen) p).mp hmem).2 (List.mem_cons_self p seen)

/-- Deduplication keeps first occurrences: positions in the output are
ordered by first index in the input. -/
theorem dropDupsSeen_pairwise_indexOf (l : List AddrPair) :
    ∀ seen, (dropDupsSeen seen l).Pairwise
      (fun a b => l.indexOf a < l.indexOf b) := by
  induction l with
  | nil => intro seen; simp [dropDupsSeen]
  | cons p rest ih =>
    intro seen
    by_cases hp : p ∈ seen
    · simp only [dropDupsSeen, if_pos hp]
      refine (ih seen).imp_of_mem (fun {a b} ha hb hlt => ?_)
      have hanep : p ≠ a := fun h =>
        ((mem_dropDupsSeen rest seen a).mp ha).2 (h ▸ hp)
      have hbnep : p ≠ b := fun h =>
        ((mem_dropDupsSeen rest seen b).mp hb).2 (h ▸ hp)
      rw [List.indexOf_cons_ne rest hanep, List.indexOf_cons_ne rest hbnep]
      omega
    · simp only [dropDupsSeen, if_neg hp, List.pairwise_cons]
      constructor
      · intro b hb
        have hbnep : p ≠ b := fun h =>
          ((mem_dropDupsSeen rest (p :: seen) b).mp hb).2 (h ▸ List.mem_cons_self p seen)
        rw [List.indexOf_cons_self, List.indexOf_cons_ne rest hbnep]
        omega
      · refine (ih (p :: seen)).imp_of_mem (fun {a b} ha hb hlt => ?_)
        have hanep : p ≠ a := fun h =>
          ((mem_dropDupsSeen rest (p :: seen) a).mp ha).2 (h ▸ List.mem_cons_self p seen)
        have hbnep : p ≠ b := fun h =>
          ((mem_dropDupsSeen rest (p :: seen) b).mp hb).2 (h ▸ List.mem_cons_self p seen)
        rw [List.indexOf_cons_ne rest hanep, List.indexOf_cons_ne rest hbnep]
        omega

/-- Claim C8: deduplication returns at most one pair per filtered record,
keeps every filtered record's pair exactly once, and lists the distinct
pairs by first occurrence in the record order. -/
theorem claim8_dedup_properties (rows : List GaRecord) :
    (unique_addresses rows).length ≤ rows.length
      ∧ (∀ p ∈ rows.map addrPair, (unique_addresses rows).count p = 1)
      ∧ (unique_addresses rows).Pairwise
          (fun a b => (rows.map addrPair).indexOf a < (rows.map addrPair).indexOf b) := by
  refine ⟨?_, fun p hp => ?_, ?_⟩
  · calc (unique_addresses rows).length
        ≤ (rows.map addrPair).length := (dropDupsSeen_sublist _ _).length_le
      _ = rows.length := List.length_map _ _
  · refine List.count_eq_one_of_mem (dropDupsSeen_nodup _ _) ?_
    exact (mem_dropDupsSeen _ _ _).mpr ⟨hp, List.not_mem_nil p⟩
  · exact dropDupsSeen_pairwise_indexOf _ _

/-- Claim C8 witness: three records, two sharing their address pair. -/
theorem claim8_witness :
    (unique_addresses
          [⟨"GA", "1 Main St", "Macon", "31201", "F1", "S1"⟩,
            ⟨"GA", "1 Main St", "Macon", "31201", "F1", "S1"⟩,
            ⟨"GA", "2 Oak Ave", "Macon", "31201", "F2", "S1"⟩]).length ≤ 3
      ∧ (∀ p ∈ ([⟨"GA", "1 Main St", "Macon", "31201", "F1", "S1"⟩,
            ⟨"GA", "1 Main St", "Macon", "31201", "F1", "S1"⟩,
            ⟨"GA", "2 Oak Ave", "Macon", "31201", "F2", "S1"⟩] :
              List GaRecord).map addrPair,
          (unique_addresses
            [⟨"GA", "1 Main St", "Macon", "31201", "F1", "S1"⟩,
              ⟨"GA", "1 Main St", "Macon", "31201", "F1", "S1"⟩,
              ⟨"GA", "2 Oak Ave", "Macon", "31201", "F2", "S1"⟩]).count p = 1)
      ∧ (unique_addresses
            [⟨"GA", "1 Main St", "Macon", "31201", "F1", "S1"⟩,
              ⟨"GA", "1 Main St", "Macon", "31201", "F1", "S1"⟩,
              ⟨"GA", "2 Oak Ave", "Macon", "31201", "F2", "S1"⟩]).Pairwise
          (fun a b =>
            (([⟨"GA", "1 Main St", "Macon", "31201", "F1", "S1"⟩,
                ⟨"GA", "1 Main St", "Macon", "31201", "F1", "S1"⟩,
                ⟨"GA", "2 Oak Ave", "Macon", "31201", "F2", "S1"⟩] :
                  List GaRecord).map addrPair).indexOf a <
              (([⟨"GA", "1 Main St", "Macon", "31201", "F1", "S1"⟩,
                  ⟨"GA", "1 Main St", "Macon", "31201", "F1", "S1"⟩,
                  ⟨"GA", "2 Oak Ave", "Macon", "31201", "F2", "S1"⟩] :
                    List GaRecord).map addrPair).indexOf b) :=
  claim8_dedup_properties _

/-! ## Lemmas about the cache keys -/

/-- Every loop iteration records its entry under the pair's `full_address`. -/
theorem geocodeStep_entry_full (g : String → GeoOutcome) (p : AddrPair) :
    (geocodeStep g p).entry.full_address = p.full_address := by
  cases h : g p.full_address with
  | found lat lon => simp [geocodeStep, h]
  | err => simp [geocodeStep, h]
  | notFound =>
    by_cases hs : p.simple_address = p.full_address
    · simp [geocodeStep, h, hs]
    · cases h2 : g p.simple_address <;> simp [geocodeStep, h, hs, h2]

/-- Claim C1 counterexample: two filtered records with different street/city
fields concatenate to the same `full_address` ("a, b" + "c" versus "a" +
"b, c"); both survive pair-deduplication, both are geocoded, and the final
flushed cache holds two entries with equal `full_address`. -/
theorem claim1_counterexample :
    (cacheKeys ((runLoop geoDup (to_geocode (unique_addresses (jobs_ga jobsDup)) none)
          (initResults none)).results)) = ["A, B, C, GA 1", "A, B, C, GA 1"]
      ∧ ¬ (cacheKeys ((runLoop geoDup (to_geocode (unique_addresses (jobs_ga jobsDup)) none)
          (initResults none)).results)).Nodup :=
  ⟨by decide, by decide⟩

/-- Claim C1 amended: the final cache has at most one entry per
`full_address` provided the loaded cache's keys are distinct and no two
distinct deduplicated (full_address, simple_address) pairs share a
`full_address` (the unamended claim fails exactly when they do). -/
theorem claim1_amended (g : String → GeoOutcome) (rows : List GaRecord)
    (cacheFile : Option (List CacheEntry))
    (hload : (cacheKeys (initResults cacheFile)).Nodup)
    (hfull : ((unique_addresses rows).map AddrPair.full_address).Nodup) :
    (cacheKeys ((runLoop g (to_geocode (unique_addresses rows) cacheFile)
        (initResults cacheFile)).results)).Nodup := by
  have hkeys : cacheKeys ((runLoop g (to_geocode (unique_addresses rows) cacheFile)
      (initResults cacheFile)).results) =
      cacheKeys (initResults cacheFile) ++
        (to_geocode (unique_addresses rows) cacheFile).map AddrPair.full_address := by
    rw [cacheKeys, runLoop_results, List.map_append, List.map_map]
    congr 1
    exact List.map_congr_left (fun p _ => geocodeStep_entry_full g p)
  rw [hkeys]
  cases cacheFile with
  | none =>
    simpa [initResults, to_geocode, cacheKeys] using hfull
  | some df =>
    refine List.Nodup.append hload ?_ ?_
    · exact ((List.filter_sublist _).map AddrPair.full_address).nodup hfull
    · intro a ha hb
      rcases List.mem_map.mp hb with ⟨p, hp, rfl⟩
      have := (List.mem_filter.mp hp).2
      simp only [Bool.not_eq_true'] at this
      exact absurd ha (by simpa [List.elem_iff] using this)

/-- Claim C1 amended witness. -/
theorem claim1_witness :
    (cacheKeys ((runLoop gNotFound
        (to_geocode (unique_addresses [⟨"GA", "1 Main St", "Macon", "31201", "F1", "S1"⟩,
            ⟨"GA", "2 Oak Ave", "Macon", "31201", "F2", "S1"⟩]) (some [⟨"F1", some 1, some 2⟩]))
        (initResults (some [⟨"F1", some 1, some 2⟩]))).results)).Nodup :=
  claim1_amended gNotFound _ _ (by decide) (by decide)

/-! ## Lemmas about the merge -/

/-- A resolved row comes from a filtered record and a cache entry with the
matching `full_address` whose coordinates it copies. -/
theorem mem_dropna_mergeLeft (rows : List GaRecord) (cache : List CacheEntry)
    (row : ResolvedRow) (h : row ∈ dropna (mergeLeft rows cache)) :
    row.record ∈ rows ∧ ∃ e ∈ cache, e.full_address = row.record.full_address ∧
      e.latitude = some row.latitude ∧ e.longitude = some row.longitude := by
  rcases List.mem_filterMap.mp h with ⟨m, hm, hfm⟩
  rcases List.mem_flatMap.mp hm with ⟨r, hr, hmo⟩
  rcases hla : m.latitude with _ | la
  · rw [hla] at hfm; exact absurd hfm (by simp)
  rcases hlo : m.longitude with _ | lo
  · rw [hla, hlo] at hfm; exact absurd hfm (by simp)
  rw [hla, hlo] at hfm
  simp only [Option.some.injEq] at hfm
  simp only [mergeLeftOne] at hmo
  split at hmo
  · simp only [List.mem_singleton] at hmo
    rw [hmo] at hla
    exact absurd hla (by simp)
  · rcases List.mem_map.mp hmo with ⟨e, he, hme⟩
    have hec : e ∈ cache := (List.mem_filter.mp he).1
    have hef : e.full_address = r.full_address := by
      have := (List.mem_filter.mp he).2
      exact beq_iff_eq.mp this
    have hrec : m.record = r := by rw [← hme]
    refine ⟨?_, e, hec, ?_, ?_, ?_⟩
    · rw [← hfm, hrec]; exact hr
    · rw [hef, ← hfm, hrec]
    · rw [← hme] at hla; rw [← hfm]; simpa using hla
    · rw [← hme] at hlo; rw [← hfm]; simpa using hlo

/-- Claim C3 counterexample: with the two ambiguous-concatenation records of
`jobsDup` and a geocoder that resolves only the second simple address, the
flushed cache holds both a negative and a positive entry for the shared
`full_address`, and the records with that address — whose address therefore
has a negative cache entry — still appear in the final resolved set. -/
theorem claim3_counterexample :
    ((runPipeline (some jobsDup) none geoDup).toOption.map PipelineOutput.flushedCache) =
        some [⟨"A, B, C, GA 1", none, none⟩, ⟨"A, B, C, GA 1", some 1, some 2⟩]
      ∧ ((runPipeline (some jobsDup) none geoDup).toOption.map
            (fun o => o.resolved.map (fun r => r.record.full_address))) =
          some ["A, B, C, GA 1", "A, B, C, GA 1"] :=
  ⟨by decide, by decide⟩

/-- Claim C3 amended: provided the final cache table has pairwise-distinct
`full_address` keys, a resolved record's coordinates equal those of the
cache entry with its `full_address`, the point geometries are built in
(longitude, latitude) order, and records whose entry is negative are absent
from the resolved set. -/
theorem claim3_amended (rows : List GaRecord) (cache : List CacheEntry)
    (hkeys : (cacheKeys cache).Nodup) :
    (∀ row ∈ dropna (mergeLeft rows cache), ∀ e ∈ cache,
        e.full_address = row.record.full_address →
          e.latitude = some row.latitude ∧ e.longitude = some row.longitude)
      ∧ geometryOf (dropna (mergeLeft rows cache)) =
          (dropna (mergeLeft rows cache)).map (fun r => Point.mk r.longitude r.latitude)
      ∧ (∀ e ∈ cache, (e.latitude = none ∨ e.longitude = none) →
          ∀ row ∈ dropna (mergeLeft rows cache), row.record.full_address ≠ e.full_address) := by
  have hinj : ∀ e ∈ cache, ∀ e' ∈ cache, e.full_address = e'.full_address → e = e' := by
    intro e he e' he' hfe
    exact List.inj_on_of_nodup_map hkeys he he' hfe
  have main : ∀ row ∈ dropna (mergeLeft rows cache), ∀ e ∈ cache,
      e.full_address = row.record.full_address →
        e.latitude = some row.latitude ∧ e.longitude = some row.longitude := by
    intro row hrow e he hfull
    rcases (mem_dropna_mergeLeft rows cache row hrow).2 with ⟨e', he', hef, hla, hlo⟩
    have : e = e' := hinj e he e' he' (by rw [hfull, hef])
    rw [this]
    exact ⟨hla, hlo⟩
  refine ⟨main, ?_, ?_⟩
  · rw [geometryOf, List.zip_map', List.map_map]
    rfl
  · intro e he hneg row hrow heq
    rcases main row hrow e he heq.symm with ⟨hla, hlo⟩
    rcases hneg with hn | hn
    · rw [hn] at hla; exact absurd hla (by simp)
    · rw [hn] at hlo; exact absurd hlo (by simp)

/-- Claim C3 amended witness: one record, a distinct-keyed cache with its
positive entry and an unrelated negative entry. -/
theorem claim3_witness :
    (∀ row ∈ dropna (mergeLeft rowsF1 cacheF12), ∀ e ∈ cacheF12,
        e.full_address = row.record.full_address →
          e.latitude = some row.latitude ∧ e.longitude = some row.longitude)
      ∧ geometryOf (dropna (mergeLeft rowsF1 cacheF12)) =
          (dropna (mergeLeft rowsF1 cacheF12)).map (fun r => Point.mk r.longitude r.latitude)
      ∧ (∀ e ∈ cacheF12, (e.latitude = none ∨ e.longitude = none) →
          ∀ row ∈ dropna (mergeLeft rowsF1 cacheF12), row.record.full_address ≠ e.full_address) :=
  claim3_amended rowsF1 cacheF12 (by decide)

/-! ## Lemmas about the flush policy -/

/-- Every flush snapshot is an initial segment of the final accumulated
result list: each flush rewrote the file with the complete list built so
far, never a delta. -/
theorem foldl_flushes_are_accumulated (g : String → GeoOutcome) (ps : List AddrPair) :
    ∀ st : LoopState, (∀ f ∈ st.flushes, f <+: st.results) →
      ∀ f ∈ (ps.foldl (loopStep g) st).flushes, f <+: (ps.foldl (loopStep g) st).results := by
  induction ps with
  | nil => intro st h; simpa using h
  | cons p ps ih =>
    intro st h
    simp only [List.foldl_cons]
    apply ih
    intro f hf
    simp only [loopStep] at hf ⊢
    split at hf
    · rcases List.mem_append.mp hf with hf | hf
      · exact (h f hf).trans (List.prefix_append _ _)
      · simp only [List.mem_singleton] at hf
        rw [hf]
    · exact (h f hf).trans (List.prefix_append _ _)

/-- The in-loop flush snapshot sizes are exactly the multiples of ten among
the accumulated counts reached during the fold. -/
theorem foldl_flushes_lengths (g : String → GeoOutcome) (ps : List AddrPair) :
    ∀ st : LoopState,
      (ps.foldl (loopStep g) st).flushes.map List.length =
        st.flushes.map List.length ++
          (List.range' (st.results.length + 1) ps.length).filter (fun n => n % 10 == 0) := by
  induction ps with
  | nil => intro st; simp
  | cons p ps ih =>
    intro st
    rw [List.foldl_cons, ih]
    have h1 : (loopStep g st p).flushes.map List.length =
        st.flushes.map List.length ++
          (if (st.results.length + 1) % 10 == 0 then [st.results.length + 1] else []) := by
      simp only [loopStep, List.length_append, List.length_singleton]
      split <;> simp
    have h2 : (loopStep g st p).results.length = st.results.length + 1 := by
      simp [loopStep]
    rw [h1, h2, List.append_assoc]
    congr 1
    simp only [List.length_cons]
    rw [show List.range' (st.results.length + 1) (ps.length + 1) =
        (st.results.length + 1) :: List.range' (st.results.length + 1 + 1) ps.length from rfl]
    rw [List.filter_cons]
    split <;> simp_all

/-- The number of unpersisted results never exceeds nine: invariant form.
`lastFlushLen st base` is the number of rows currently on disk, `base` the
number the file held before the loop. -/
theorem foldl_lastFlushLen_inv (g : String → GeoOutcome) (ps : List AddrPair) :
    ∀ (st : LoopState) (base : Nat),
      base ≤ lastFlushLen st base →
      lastFlushLen st base ≤ st.results.length →
      (∀ j, lastFlushLen st base < j → j ≤ st.results.length → j % 10 ≠ 0) →
      (base ≤ lastFlushLen (ps.foldl (loopStep g) st) base ∧
        lastFlushLen (ps.foldl (loopStep g) st) base ≤
          (ps.foldl (loopStep g) st).results.length ∧
        ∀ j, lastFlushLen (ps.foldl (loopStep g) st) base < j →
          j ≤ (ps.foldl (loopStep g) st).results.length → j % 10 ≠ 0) := by
  induction ps with
  | nil => intro st base h1 h2 h3; exact ⟨h1, h2, h3⟩
  | cons p ps ih =>
    intro st base h1 h2 h3
    rw [List.foldl_cons]
    have hlen : (loopStep g st p).results.length = st.results.length + 1 := by
      simp [loopStep]
    by_cases hc : (st.results.length + 1) % 10 = 0
    · have hpers : lastFlushLen (loopStep g st p) base = st.results.length + 1 := by
        simp only [lastFlushLen, loopStep, List.length_append, List.length_singleton, hc]
        simp [List.getLast?_concat]
      exact ih _ base (by omega) (by omega) (by intro j hj1 hj2 _; rw [hpers] at hj1; omega)
    · have hpers : lastFlushLen (loopStep g st p) base = lastFlushLen st base := by
        simp only [lastFlushLen, loopStep, List.length_append, List.length_singleton]
        have : ((st.results.length + 1) % 10 == 0) = false := by
          simpa using hc
        simp [this]
      refine ih _ base (by omega) (by omega) ?_
      intro j hj1 hj2 hjmod
      rw [hpers] at hj1
      rw [hlen] at hj2
      by_cases hjm : j = st.results.length + 1
      · exact hc (hjm ▸ hjmod)
      · exact h3 j hj1 (by omega) hjmod

/-- At every crash point (iteration boundary), at most nine completed
lookups are not yet persisted. -/
theorem runLoop_flush_lag (g : String → GeoOutcome) (ps : List AddrPair)
    (init : List CacheEntry) :
    (runLoop g ps init).results.length -
      lastFlushLen (runLoop g ps init) init.length ≤ 9 := by
  rw [runLoop]
  have hinv := foldl_lastFlushLen_inv g ps ⟨init, [], []⟩ init.length
    (by simp [lastFlushLen]) (by simp [lastFlushLen])
    (by intro j hj1 hj2 _; simp [lastFlushLen] at hj1 hj2; omega)
  rcases hinv with ⟨hb, hle, hnone⟩
  by_contra hgt
  push_neg at hgt
  have hj := hnone (lastFlushLen (List.foldl (loopStep g) ⟨init, [], []⟩ ps) init.length +
    (10 - lastFlushLen (List.foldl (loopStep g) ⟨init, [], []⟩ ps) init.length % 10))
    (by omega) (by omega)
  apply hj
  omega

/-- Claim C5 counterexample: with a loaded cache of five rows and ten
pending lookups, the only in-loop flush happens after the fifth lookup
(snapshot of ten rows): after the tenth completed lookup (fifteen rows
accumulated) no flush occurs, refuting "a flush occurs after every 10th
completed lookup". -/
theorem claim5_counterexample :
    ((runLoop gNotFound pend10 cache5).flushes.map List.length = [10])
      ∧ (runLoop gNotFound pend10 cache5).results.length = 15 :=
  ⟨by decide, by decide⟩

/-- Claim C5 amended: every flush writes the complete accumulated list
(each snapshot is an initial segment of the final list); an in-loop flush
occurs after a lookup exactly when the accumulated count — loaded rows plus
lookups so far, not lookups alone — is divisible by ten; with the final
flush after the loop, at most nine completed lookups are unpersisted at any
iteration boundary. -/
theorem claim5_flush_policy (g : String → GeoOutcome) (ps : List AddrPair)
    (init : List CacheEntry) :
    (∀ f ∈ (runLoop g ps init).flushes, f <+: (runLoop g ps init).results)
      ∧ (runLoop g ps init).flushes.map List.length =
          (List.range' (init.length + 1) ps.length).filter (fun n => n % 10 == 0)
      ∧ ∀ k : Nat, (runLoop g (ps.take k) init).results.length -
          lastFlushLen (runLoop g (ps.take k) init) init.length ≤ 9 := by
  refine ⟨?_, ?_, fun k => runLoop_flush_lag g (ps.take k) init⟩
  · exact foldl_flushes_are_accumulated g ps ⟨init, [], []⟩ (by simp)
  · simpa using foldl_flushes_lengths g ps ⟨init, [], []⟩

/-- Claim C5 witness: ten pending lookups from an empty cache; the single
flush (after the tenth) is the whole final list, and at the seventh
iteration at most nine lookups are unpersisted. -/
theorem claim5_witness :
    ((runLoop gNotFound pend10 []).results <+: (runLoop gNotFound pend10 []).results)
      ∧ (runLoop gNotFound pend10 []).flushes.map List.length =
          (List.range' (List.length ([] : List CacheEntry) + 1) pend10.length).filter
            (fun n => n % 10 == 0)
      ∧ (runLoop gNotFound (pend10.take 7) []).results.length -
          lastFlushLen (runLoop gNotFound (pend10.take 7) [])
            (List.length ([] : List CacheEntry)) ≤ 9 := by
  refine ⟨(claim5_flush_policy gNotFound pend10 []).1 _ (by decide),
    (claim5_flush_policy gNotFound pend10 []).2.1,
    (claim5_flush_policy gNotFound pend10 []).2.2 7⟩

end GeorgiaJobsMap
